import Mathlib

/-!
Shallow embedding of the async scheduling core of `atscppapi`:

* `src/AsyncTimer.cc` — the `AsyncTimerState` record, `AsyncTimer::run`,
  the continuation handler `handleTimerEvent`, and `AsyncTimer::~AsyncTimer`.
* `src/include/atscppapi/Transaction.h` — the `AsyncHttpFetch` declaration
  (its implementation file is not part of the sources; the body-extraction
  behaviour is modelled from the spec where noted).

Host (Traffic Server) primitives are modelled by an effect trace: each call to
`TSContSchedule` / `TSContScheduleEvery` returns a fresh action handle (a
natural number drawn from a counter carried in the state), and every host
interaction (`TSActionCancel`, `TSContDestroy`, `dispatch()` on the stored
controller, `delete`) is recorded as a `HostEffect`.  The host delivers a
timer event to the continuation exactly while the timer object is alive and
at least one scheduled action is outstanding (`canFire`); the boolean result
of `dispatch_controller_->dispatch()` at each delivery is an input of the
execution (`execFires` consumes a list of such results).
-/

/-- Model of the enum `AsyncTimer::Type` from `AsyncTimer.h`. -/
inductive TimerType
| TYPE_ONE_OFF
| TYPE_PERIODIC
deriving DecidableEq, Repr

/-- One observable interaction with the host layer or the receiver world. -/
inductive HostEffect
| scheduleOnce (timeout_in_ms : Int) (handle : Nat)
| scheduleEvery (period_in_ms : Int) (handle : Nat)
| actionCancel (handle : Nat)
| contDestroy
| dispatchCall (result : Bool)
| deleteTimer
| deleteState
deriving DecidableEq, Repr

/-- Model of `struct atscppapi::AsyncTimerState` (AsyncTimer.cc lines 24-36).
`TSAction` fields become `Option Nat` (`none` = `NULL`); the stored
`dispatch_controller_` is identified by a `Nat` tag, `none` before `run()`.
`next_action_handle` is model bookkeeping: the host hands out fresh handles.
`timer_alive` records whether the owning `AsyncTimer` object still exists. -/
structure AsyncTimerState where
  type_ : TimerType
  period_in_ms_ : Int
  initial_period_in_ms_ : Int
  initial_timer_action_ : Option Nat
  periodic_timer_action_ : Option Nat
  dispatch_controller_ : Option Nat
  next_action_handle : Nat
  timer_alive : Bool
deriving DecidableEq, Repr

/-- The `AsyncTimer` constructor together with the `AsyncTimerState`
member-initializer list (lines 33-35 and 60-65): both action fields start
`NULL`, no controller is stored yet. -/
def AsyncTimer.construct (type : TimerType) (period_in_ms initial_period_in_ms : Int) :
    AsyncTimerState :=
  { type_ := type
    period_in_ms_ := period_in_ms
    initial_period_in_ms_ := initial_period_in_ms
    initial_timer_action_ := none
    periodic_timer_action_ := none
    dispatch_controller_ := none
    next_action_handle := 0
    timer_alive := true }

/-- Local variable `one_off_timeout_in_ms` of `AsyncTimer::run` (lines 68-76). -/
def oneOffTimeout (s : AsyncTimerState) : Int :=
  if s.type_ = TimerType.TYPE_ONE_OFF then s.period_in_ms_ else s.initial_period_in_ms_

/-- Local variable `regular_timeout_in_ms` of `AsyncTimer::run` (lines 69-76). -/
def regularTimeout (s : AsyncTimerState) : Int :=
  if s.type_ = TimerType.TYPE_ONE_OFF then 0 else s.period_in_ms_

/-- Model of `AsyncTimer::run` (lines 67-88): arm `TSContSchedule` when the
one-off timeout is truthy, otherwise `TSContScheduleEvery` when the regular
timeout is truthy, otherwise nothing; finally store the controller. -/
def AsyncTimer.run (dispatch_controller : Nat) (s : AsyncTimerState) :
    AsyncTimerState × List HostEffect :=
  if oneOffTimeout s ≠ 0 then
    ({ s with initial_timer_action_ := some s.next_action_handle
              next_action_handle := s.next_action_handle + 1
              dispatch_controller_ := some dispatch_controller },
     [HostEffect.scheduleOnce (oneOffTimeout s) s.next_action_handle])
  else if regularTimeout s ≠ 0 then
    ({ s with periodic_timer_action_ := some s.next_action_handle
              next_action_handle := s.next_action_handle + 1
              dispatch_controller_ := some dispatch_controller },
     [HostEffect.scheduleEvery (regularTimeout s) s.next_action_handle])
  else
    ({ s with dispatch_controller_ := some dispatch_controller }, [])

/-- Line 44 of `handleTimerEvent` in isolation: the assignment
`state->initial_timer_action_ = NULL`, i.e. the intermediate state reached
after the initial handle is cleared and before the periodic one is armed. -/
def clearInitial (s : AsyncTimerState) : AsyncTimerState :=
  { s with initial_timer_action_ := none }

/-- Lines 42-50 of `handleTimerEvent`: if an initial action is pending, clear
it (line 44) and, for periodic timers only, arm the steady periodic action via
`TSContScheduleEvery(cont_, period_in_ms_, ...)` (lines 45-49). -/
def armPhase (s : AsyncTimerState) : AsyncTimerState × List HostEffect :=
  match s.initial_timer_action_ with
  | some _ =>
    if s.type_ = TimerType.TYPE_PERIODIC then
      ({ clearInitial s with
           periodic_timer_action_ := some s.next_action_handle
           next_action_handle := s.next_action_handle + 1 },
       [HostEffect.scheduleEvery s.period_in_ms_ s.next_action_handle])
    else (clearInitial s, [])
  | none => (s, [])

/-- The `TSActionCancel` calls guarded by the `if`s at lines 91-98. -/
def cancelArmed (a : Option Nat) : List HostEffect :=
  match a with
  | some h => [HostEffect.actionCancel h]
  | none => []

/-- Model of `AsyncTimer::~AsyncTimer` (lines 90-102): cancel whichever action
fields are non-NULL, then `TSContDestroy(cont_)` and `delete state_`. -/
def AsyncTimer.destruct (s : AsyncTimerState) : AsyncTimerState × List HostEffect :=
  ({ s with timer_alive := false },
   cancelArmed s.initial_timer_action_ ++ cancelArmed s.periodic_timer_action_
     ++ [HostEffect.contDestroy, HostEffect.deleteState])

/-- Model of `handleTimerEvent` (lines 40-56): run the arming phase, call
`dispatch()` on the stored controller (its boolean result is the input
`dispatch_result`), and on a `false` result `delete state->timer_`, which runs
the destructor. -/
def handleTimerEvent (dispatch_result : Bool) (s : AsyncTimerState) :
    AsyncTimerState × List HostEffect :=
  let p := armPhase s
  if dispatch_result then
    (p.1, p.2 ++ [HostEffect.dispatchCall true])
  else
    let d := AsyncTimer.destruct p.1
    (d.1, p.2 ++ [HostEffect.dispatchCall false, HostEffect.deleteTimer] ++ d.2)

/-- The host delivers a timer event exactly while the timer object is alive
and some scheduled action is outstanding. -/
def canFire (s : AsyncTimerState) : Bool :=
  s.timer_alive &&
    (s.initial_timer_action_.isSome || s.periodic_timer_action_.isSome)

/-- Execution of a sequence of host timer-event deliveries; the list entry for
each delivery is the boolean that `dispatch_controller_->dispatch()` returns
there.  Delivery stops as soon as no action is outstanding (or the timer has
deleted itself). -/
def execFires (s : AsyncTimerState) : List Bool → AsyncTimerState × List HostEffect
| [] => (s, [])
| b :: bs =>
  if canFire s then
    let p := handleTimerEvent b s
    let q := execFires p.1 bs
    (q.1, p.2 ++ q.2)
  else (s, [])

/-- State right after `construct` followed by `run`. -/
def runState (type : TimerType) (p ip : Int) (dc : Nat) : AsyncTimerState :=
  (AsyncTimer.run dc (AsyncTimer.construct type p ip)).1

/-- Host effects emitted by `run` on a freshly constructed timer. -/
def runEffects (type : TimerType) (p ip : Int) (dc : Nat) : List HostEffect :=
  (AsyncTimer.run dc (AsyncTimer.construct type p ip)).2

/-- State after `construct`, `run`, and the deliveries described by `bs`. -/
def stateAfter (type : TimerType) (p ip : Int) (dc : Nat) (bs : List Bool) :
    AsyncTimerState :=
  (execFires (runState type p ip dc) bs).1

/-- Effect trace of `construct`, `run`, and the deliveries described by `bs`. -/
def effectsAfter (type : TimerType) (p ip : Int) (dc : Nat) (bs : List Bool) :
    List HostEffect :=
  runEffects type p ip dc ++ (execFires (runState type p ip dc) bs).2

/-- Number of non-absent action handles in a state. -/
def armedCount (s : AsyncTimerState) : Nat :=
  (if s.initial_timer_action_.isSome then 1 else 0) +
    (if s.periodic_timer_action_.isSome then 1 else 0)

/-- The timeout that `run()` effectively selects: `period_ms` for a one-off
timer; for a periodic timer, `initial_period_ms` when nonzero, else
`period_ms`.  `run()` arms a handle iff this value is nonzero. -/
def selectedTimeout (type : TimerType) (p ip : Int) : Int :=
  if type = TimerType.TYPE_ONE_OFF then p else if ip ≠ 0 then ip else p

/-- Recognizer for `dispatchCall` effects. -/
def isDispatchCall : HostEffect → Bool
| HostEffect.dispatchCall _ => true
| _ => false

/-- Recognizer for `actionCancel` effects. -/
def isActionCancel : HostEffect → Bool
| HostEffect.actionCancel _ => true
| _ => false

/-- The state invariant maintained by every timer operation: at most one
action handle is armed, a one-off timer never has a periodic handle, and every
armed handle was previously handed out by the host (so it is below the fresh
counter). -/
def TimerInv (s : AsyncTimerState) : Prop :=
  armedCount s ≤ 1 ∧
  (s.type_ = TimerType.TYPE_ONE_OFF → s.periodic_timer_action_ = none) ∧
  (∀ h, s.initial_timer_action_ = some h → h < s.next_action_handle) ∧
  (∀ h, s.periodic_timer_action_ = some h → h < s.next_action_handle)

/-- Recognizer for the `deleteTimer` effect. -/
def isDeleteTimer : HostEffect → Bool
| HostEffect.deleteTimer => true
| _ => false

/-- Recognizer for the `deleteState` effect. -/
def isDeleteState : HostEffect → Bool
| HostEffect.deleteState => true
| _ => false

/-- A state that no longer refers to handle `h0` anywhere: neither action
field holds it and the host's fresh counter is already past it, so no later
scheduling call can ever hand it out again. -/
def avoidsHandle (h0 : Nat) (s : AsyncTimerState) : Prop :=
  s.initial_timer_action_ ≠ some h0 ∧ s.periodic_timer_action_ ≠ some h0 ∧
    h0 < s.next_action_handle

/-- Model of the enum `AsyncHttpFetch::Result` (Transaction.h line 353). -/
inductive AsyncHttpFetch.Result
| RESULT_SUCCESS
| RESULT_TIMEOUT
| RESULT_FAILURE
deriving DecidableEq, Repr

/-- Modelled from the spec: the implementation file `AsyncHttpFetch.cc` (the
`AsyncHttpFetchState` behind the header declaration in Transaction.h) is not
among the sources, so the completed-fetch state is modelled from the spec's
Fetch Core contract: a result code plus, once complete, the delivered body
payload (a byte sequence). -/
structure AsyncHttpFetchState where
  result : AsyncHttpFetch.Result
  body : List UInt8
deriving DecidableEq, Repr

/-- Modelled from the spec: the host's async-fetch facility completes a fetch
with `(result_code, body_view)`; the state stores both for post-completion
queries. -/
def AsyncHttpFetch.completion (r : AsyncHttpFetch.Result) (payload : List UInt8) :
    AsyncHttpFetchState :=
  { result := r, body := payload }

/-- Modelled from the spec: `AsyncHttpFetch::getResponseBody(body, body_size)`
(declared at Transaction.h lines 374-382, "On unsuccessful completion, values
(NULL, 0) are set"): on a non-SUCCESS result the body pointer is absent and
the size is 0; on SUCCESS it is a view of the delivered payload with its
length. -/
def AsyncHttpFetch.getResponseBody (s : AsyncHttpFetchState) :
    Option (List UInt8) × Nat :=
  match s.result with
  | AsyncHttpFetch.Result.RESULT_SUCCESS => (some s.body, s.body.length)
  | _ => (none, 0)

lemma armPhase_type (s : AsyncTimerState) : (armPhase s).1.type_ = s.type_ := by
  unfold armPhase clearInitial
  rcases h : s.initial_timer_action_ with _ | h0 <;> simp
  split <;> simp

lemma handleTimerEvent_type (b : Bool) (s : AsyncTimerState) :
    (handleTimerEvent b s).1.type_ = s.type_ := by
  unfold handleTimerEvent AsyncTimer.destruct
  rcases b <;> simp [armPhase_type]

lemma execFires_type (bs : List Bool) (s : AsyncTimerState) :
    (execFires s bs).1.type_ = s.type_ := by
  induction bs generalizing s with
  | nil => rfl
  | cons b bs ih =>
    unfold execFires
    split
    · simp [ih, handleTimerEvent_type]
    · rfl

lemma runState_type (t : TimerType) (p ip : Int) (dc : Nat) :
    (runState t p ip dc).type_ = t := by
  unfold runState AsyncTimer.run AsyncTimer.construct
  split
  · rfl
  · split <;> rfl

lemma armPhase_initial (s : AsyncTimerState) :
    (armPhase s).1.initial_timer_action_ = none := by
  unfold armPhase clearInitial
  rcases h : s.initial_timer_action_ with _ | h0
  · simp [h]
  · simp only []
    split <;> simp

lemma timerInv_construct (t : TimerType) (p ip : Int) :
    TimerInv (AsyncTimer.construct t p ip) := by
  simp [TimerInv, AsyncTimer.construct, armedCount]

lemma timerInv_runState (t : TimerType) (p ip : Int) (dc : Nat) :
    TimerInv (runState t p ip dc) := by
  cases t <;>
    simp [TimerInv, runState, AsyncTimer.run, AsyncTimer.construct, oneOffTimeout,
      regularTimeout, armedCount] <;>
    split <;> simp_all
  split <;> simp_all

lemma timerInv_armPhase (s : AsyncTimerState) (h : TimerInv s) :
    TimerInv (armPhase s).1 := by
  obtain ⟨hc, ho, hbi, hbp⟩ := h
  unfold armPhase clearInitial
  rcases hi : s.initial_timer_action_ with _ | h0
  · simp only [hi]
    exact ⟨hc, ho, hbi, hbp⟩
  · simp only []
    split
    · rename_i hper
      refine ⟨?_, ?_, ?_, ?_⟩ <;> simp [armedCount, hper]
    · refine ⟨?_, ?_, ?_, ?_⟩
      · simp only [armedCount]
        split <;> split <;> simp_all
      · intro hone
        simpa using ho hone
      · simp
      · simpa using hbp

lemma timerInv_destruct (s : AsyncTimerState) (h : TimerInv s) :
    TimerInv (AsyncTimer.destruct s).1 := by
  obtain ⟨hc, ho, hbi, hbp⟩ := h
  unfold AsyncTimer.destruct
  exact ⟨hc, ho, hbi, hbp⟩

lemma timerInv_handleTimerEvent (b : Bool) (s : AsyncTimerState) (h : TimerInv s) :
    TimerInv (handleTimerEvent b s).1 := by
  unfold handleTimerEvent
  rcases b with _ | _
  · simpa using timerInv_destruct _ (timerInv_armPhase s h)
  · simpa using timerInv_armPhase s h

lemma timerInv_execFires (bs : List Bool) (s : AsyncTimerState) (h : TimerInv s) :
    TimerInv (execFires s bs).1 := by
  induction bs generalizing s with
  | nil => exact h
  | cons b bs ih =>
    unfold execFires
    split
    · exact ih _ (timerInv_handleTimerEvent b s h)
    · exact h

lemma timerInv_stateAfter (t : TimerType) (p ip : Int) (dc : Nat) (bs : List Bool) :
    TimerInv (stateAfter t p ip dc bs) :=
  timerInv_execFires bs _ (timerInv_runState t p ip dc)

/-- C1 counterexample: a ONE_OFF timer with `period_ms = 0` is a valid
`(type, period_ms, initial_period_ms)` combination (the periods are only
required to be non-negative), yet `run()` arms neither
`initial_timer_action_` nor `periodic_timer_action_`, so it does not arm
exactly one handle. -/
theorem run_one_off_zero_arms_no_handle :
    (runState TimerType.TYPE_ONE_OFF 0 0 7).initial_timer_action_ = none ∧
    (runState TimerType.TYPE_ONE_OFF 0 0 7).periodic_timer_action_ = none ∧
    armedCount (runState TimerType.TYPE_ONE_OFF 0 0 7) ≠ 1 := by
  decide

lemma armedCount_runState_eq (t : TimerType) (p ip : Int) (dc : Nat) :
    armedCount (runState t p ip dc) =
      if selectedTimeout t p ip = 0 then 0 else 1 := by
  cases t <;>
    simp [armedCount, runState, AsyncTimer.run, AsyncTimer.construct, oneOffTimeout,
      regularTimeout, selectedTimeout] <;>
    split <;> simp_all
  split <;> simp_all

/-- C1 (amended): `run()` never arms two handles; it arms exactly one handle
iff the timeout it selects (`period_ms` for ONE_OFF; `initial_period_ms` if
nonzero else `period_ms` for PERIODIC) is nonzero, and none when that
selected timeout is zero. -/
theorem run_arms_one_handle_iff_selected_timeout_nonzero
    (t : TimerType) (p ip : Int) (dc : Nat) :
    armedCount (runState t p ip dc) =
      if selectedTimeout t p ip = 0 then 0 else 1 :=
  armedCount_runState_eq t p ip dc

/-- C2 counterexample: for a PERIODIC timer with `initial_period_ms = 0` and
`period_ms = 0`, `run()` does not arm the periodic action immediately (it
arms nothing and emits no scheduling call), contrary to the claim's clause
for PERIODIC timers with zero `initial_period_ms`. -/
theorem run_periodic_zero_period_not_armed :
    (runState TimerType.TYPE_PERIODIC 0 0 3).periodic_timer_action_ = none ∧
    runEffects TimerType.TYPE_PERIODIC 0 0 3 = [] := by
  decide

/-- C2 (amended): delay selection of `run()`.  For ONE_OFF, the behaviour is
independent of `initial_period_ms` and, when `period_ms` is nonzero, the
single one-off delay is `period_ms`.  For PERIODIC with nonzero
`initial_period_ms`, the first fire is a one-off at `initial_period_ms` and
the callback afterwards arms the steady interval `period_ms`.  For PERIODIC
with `initial_period_ms = 0` and `period_ms` nonzero, the periodic action is
armed immediately at `period_ms` intervals. -/
theorem run_delay_selection (p ip ip2 : Int) (dc : Nat) :
    (runEffects TimerType.TYPE_ONE_OFF p ip dc
        = runEffects TimerType.TYPE_ONE_OFF p ip2 dc) ∧
    (p ≠ 0 → runEffects TimerType.TYPE_ONE_OFF p ip dc
        = [HostEffect.scheduleOnce p 0]) ∧
    (ip ≠ 0 → runEffects TimerType.TYPE_PERIODIC p ip dc
          = [HostEffect.scheduleOnce ip 0] ∧
        (armPhase (runState TimerType.TYPE_PERIODIC p ip dc)).2
          = [HostEffect.scheduleEvery p 1]) ∧
    (ip = 0 → p ≠ 0 → runEffects TimerType.TYPE_PERIODIC p ip dc
        = [HostEffect.scheduleEvery p 0]) := by
  refine ⟨?_, ?_, ?_, ?_⟩
  · simp only [runEffects, AsyncTimer.run, AsyncTimer.construct, oneOffTimeout, regularTimeout]
    split <;> split <;> simp_all
  · intro hp
    simp [runEffects, AsyncTimer.run, AsyncTimer.construct, oneOffTimeout,
      regularTimeout, hp]
  · intro hip
    constructor
    · simp [runEffects, AsyncTimer.run, AsyncTimer.construct, oneOffTimeout,
        regularTimeout, hip]
    · simp [runState, AsyncTimer.run, AsyncTimer.construct, oneOffTimeout,
        regularTimeout, hip, armPhase, clearInitial]
  · intro hip hp
    simp [runEffects, AsyncTimer.run, AsyncTimer.construct, oneOffTimeout,
      regularTimeout, hip, hp]

/-- Witness for the amended C2 theorem at concrete inputs. -/
theorem run_delay_selection_witness :
    runEffects TimerType.TYPE_ONE_OFF 5 9 3 = [HostEffect.scheduleOnce 5 0] ∧
    runEffects TimerType.TYPE_PERIODIC 7 4 3 = [HostEffect.scheduleOnce 4 0] ∧
    runEffects TimerType.TYPE_PERIODIC 7 0 3 = [HostEffect.scheduleEvery 7 0] :=
  ⟨(run_delay_selection 5 9 9 3).2.1 (by decide),
   ((run_delay_selection 7 4 4 3).2.2.1 (by decide)).1,
   (run_delay_selection 7 0 0 3).2.2.2 (by decide) (by decide)⟩

lemma execFires_of_not_canFire (s : AsyncTimerState) (h : canFire s = false)
    (bs : List Bool) : execFires s bs = (s, []) := by
  cases bs with
  | nil => rfl
  | cons b bs =>
    unfold execFires
    simp [h]

lemma runState_of_selected_zero (t : TimerType) (p ip : Int) (dc : Nat)
    (h : selectedTimeout t p ip = 0) :
    runState t p ip dc =
      { AsyncTimer.construct t p ip with dispatch_controller_ := some dc } := by
  cases t with
  | TYPE_ONE_OFF =>
    simp [selectedTimeout] at h
    simp [runState, AsyncTimer.run, AsyncTimer.construct, oneOffTimeout, regularTimeout, h]
  | TYPE_PERIODIC =>
    simp [selectedTimeout] at h
    by_cases hip : ip = 0
    · simp [hip] at h
      simp [runState, AsyncTimer.run, AsyncTimer.construct, oneOffTimeout, regularTimeout,
        hip, h]
    · simp [hip] at h

/-- C3: in every state reachable by construction, `run()`, and any number of
callback invocations, at most one of the two action handles is non-absent;
moreover the callback's arming transition clears the initial handle (line 44)
before arming the periodic one (line 47), so the intermediate state
`clearInitial` also has at most one armed handle and the state the arming
phase produces has the initial handle absent. -/
theorem at_most_one_action_handle_live (t : TimerType) (p ip : Int) (dc : Nat)
    (bs : List Bool) :
    armedCount (AsyncTimer.construct t p ip) ≤ 1 ∧
    armedCount (runState t p ip dc) ≤ 1 ∧
    armedCount (stateAfter t p ip dc bs) ≤ 1 ∧
    armedCount (clearInitial (stateAfter t p ip dc bs)) ≤ 1 ∧
    (armPhase (stateAfter t p ip dc bs)).1.initial_timer_action_ = none := by
  refine ⟨(timerInv_construct t p ip).1, (timerInv_runState t p ip dc).1,
    (timerInv_stateAfter t p ip dc bs).1, ?_, armPhase_initial _⟩
  simp only [armedCount, clearInitial]
  split <;> split <;> simp_all

/-- C9: for a timer constructed with `TYPE_ONE_OFF`, the field
`periodic_timer_action_` is absent after construction, after `run()`, and
after any number of callback invocations: nothing ever arms it. -/
theorem one_off_periodic_action_stays_absent (p ip : Int) (dc : Nat) (bs : List Bool) :
    (AsyncTimer.construct TimerType.TYPE_ONE_OFF p ip).periodic_timer_action_ = none ∧
    (runState TimerType.TYPE_ONE_OFF p ip dc).periodic_timer_action_ = none ∧
    (stateAfter TimerType.TYPE_ONE_OFF p ip dc bs).periodic_timer_action_ = none := by
  refine ⟨rfl, ?_, ?_⟩
  · exact (timerInv_runState _ p ip dc).2.1 (runState_type _ p ip dc)
  · have ht : (stateAfter TimerType.TYPE_ONE_OFF p ip dc bs).type_
        = TimerType.TYPE_ONE_OFF := by
      unfold stateAfter
      rw [execFires_type, runState_type]
    exact (timerInv_stateAfter _ p ip dc bs).2.1 ht

/-- C10: when the timeout selected by `run()` is zero (ONE_OFF with
`period_ms = 0`, or PERIODIC with `initial_period_ms = 0` and
`period_ms = 0`), `run()` arms neither handle, still stores the dispatch
controller, and no callback is ever delivered: any sequence of host steps
leaves the state unchanged and produces no effects. -/
theorem zero_selected_timeout_arms_nothing (t : TimerType) (p ip : Int) (dc : Nat)
    (bs : List Bool) (h : selectedTimeout t p ip = 0) :
    (runState t p ip dc).initial_timer_action_ = none ∧
    (runState t p ip dc).periodic_timer_action_ = none ∧
    (runState t p ip dc).dispatch_controller_ = some dc ∧
    execFires (runState t p ip dc) bs = (runState t p ip dc, []) := by
  have hr := runState_of_selected_zero t p ip dc h
  rw [hr]
  refine ⟨rfl, rfl, rfl, ?_⟩
  exact execFires_of_not_canFire _ (by simp [canFire, AsyncTimer.construct]) bs

/-- Witness for the C10 theorem at a concrete zero-timeout input. -/
theorem zero_selected_timeout_arms_nothing_witness :
    selectedTimeout TimerType.TYPE_ONE_OFF 0 5 = 0 ∧
    ((runState TimerType.TYPE_ONE_OFF 0 5 2).initial_timer_action_ = none ∧
     (runState TimerType.TYPE_ONE_OFF 0 5 2).periodic_timer_action_ = none ∧
     (runState TimerType.TYPE_ONE_OFF 0 5 2).dispatch_controller_ = some 2 ∧
     execFires (runState TimerType.TYPE_ONE_OFF 0 5 2) [true, false]
       = (runState TimerType.TYPE_ONE_OFF 0 5 2, [])) :=
  ⟨by decide, zero_selected_timeout_arms_nothing TimerType.TYPE_ONE_OFF 0 5 2
    [true, false] (by decide)⟩

example : armedCount (runState TimerType.TYPE_ONE_OFF 100 0 7) = 1 := by decide

example : armedCount (runState TimerType.TYPE_ONE_OFF 0 0 7) = 0 := by decide

example :
    (stateAfter TimerType.TYPE_PERIODIC 200 50 7 [true]).periodic_timer_action_
      = some 1 := by decide

example :
    effectsAfter TimerType.TYPE_PERIODIC 200 50 7 [true, true] =
      [HostEffect.scheduleOnce 50 0, HostEffect.scheduleEvery 200 1,
       HostEffect.dispatchCall true, HostEffect.dispatchCall true] := by decide

example :
    (stateAfter TimerType.TYPE_PERIODIC 200 50 7 [true, false]).timer_alive
      = false := by decide

lemma armPhase_none (s : AsyncTimerState) (h : s.initial_timer_action_ = none) :
    armPhase s = (s, []) := by
  unfold armPhase
  simp [h]

lemma armPhase_alive (s : AsyncTimerState) :
    (armPhase s).1.timer_alive = s.timer_alive := by
  unfold armPhase clearInitial
  rcases h : s.initial_timer_action_ with _ | a
  · simp [h]
  · simp only []
    split <;> simp

lemma runState_alive (t : TimerType) (p ip : Int) (dc : Nat) :
    (runState t p ip dc).timer_alive = true := by
  unfold runState AsyncTimer.run AsyncTimer.construct
  split
  · rfl
  · split <;> rfl

lemma handleTimerEvent_true_fst (s : AsyncTimerState) :
    (handleTimerEvent true s).1 = (armPhase s).1 := by
  unfold handleTimerEvent
  simp

lemma armPhase_no_cancel (h0 : Nat) (s : AsyncTimerState) :
    HostEffect.actionCancel h0 ∉ (armPhase s).2 := by
  unfold armPhase
  rcases h : s.initial_timer_action_ with _ | a
  · simp [h]
  · simp only []
    split <;> simp

lemma avoids_armPhase (h0 : Nat) (s : AsyncTimerState) (h : avoidsHandle h0 s) :
    avoidsHandle h0 (armPhase s).1 := by
  obtain ⟨h1, h2, h3⟩ := h
  unfold armPhase clearInitial
  rcases hi : s.initial_timer_action_ with _ | a
  · simp only [hi]
    exact ⟨h1, h2, h3⟩
  · simp only []
    split
    · refine ⟨by simp, ?_, ?_⟩
      · simp
        omega
      · simp
        omega
    · refine ⟨by simp, by simpa using h2, by simpa using h3⟩

lemma avoids_destruct (h0 : Nat) (s : AsyncTimerState) (h : avoidsHandle h0 s) :
    avoidsHandle h0 (AsyncTimer.destruct s).1 ∧
    HostEffect.actionCancel h0 ∉ (AsyncTimer.destruct s).2 := by
  obtain ⟨h1, h2, h3⟩ := h
  constructor
  · exact ⟨h1, h2, h3⟩
  · unfold AsyncTimer.destruct cancelArmed
    rcases hi : s.initial_timer_action_ with _ | a <;>
      rcases hp : s.periodic_timer_action_ with _ | c <;>
      simp_all <;> omega

lemma avoids_handleTimerEvent (h0 : Nat) (b : Bool) (s : AsyncTimerState)
    (h : avoidsHandle h0 (armPhase s).1)
    (hnc : HostEffect.actionCancel h0 ∉ (armPhase s).2) :
    avoidsHandle h0 (handleTimerEvent b s).1 ∧
    HostEffect.actionCancel h0 ∉ (handleTimerEvent b s).2 := by
  unfold handleTimerEvent
  have hd := avoids_destruct h0 _ h
  rcases b with _ | _
  · refine ⟨by simpa using hd.1, ?_⟩
    simp [hnc, hd.2]
  · refine ⟨by simpa using h, ?_⟩
    simp [hnc]

lemma avoids_execFires (h0 : Nat) (bs : List Bool) (s : AsyncTimerState)
    (h : avoidsHandle h0 s) :
    avoidsHandle h0 (execFires s bs).1 ∧
    HostEffect.actionCancel h0 ∉ (execFires s bs).2 := by
  induction bs generalizing s with
  | nil => exact ⟨h, by simp [execFires]⟩
  | cons b bs ih =>
    unfold execFires
    split
    · have h1 := avoids_handleTimerEvent h0 b s (avoids_armPhase h0 s h)
        (armPhase_no_cancel h0 s)
      have h2 := ih _ h1.1
      refine ⟨h2.1, ?_⟩
      simp [h1.2, h2.2]
    · exact ⟨h, by simp⟩

lemma avoids_after_initial_fire (b : Bool) (s : AsyncTimerState) (hinv : TimerInv s)
    (h0 : Nat) (hi : s.initial_timer_action_ = some h0) :
    avoidsHandle h0 (handleTimerEvent b s).1 ∧
    HostEffect.actionCancel h0 ∉ (handleTimerEvent b s).2 := by
  obtain ⟨hc, ho, hbi, hbp⟩ := hinv
  have hper : s.periodic_timer_action_ = none := by
    rcases hp : s.periodic_timer_action_ with _ | c
    · rfl
    · simp [armedCount, hi, hp] at hc
  have hlt : h0 < s.next_action_handle := hbi h0 hi
  have hmid : avoidsHandle h0 (armPhase s).1 := by
    unfold armPhase clearInitial
    simp only [hi]
    split
    · refine ⟨by simp, ?_, ?_⟩
      · simp
        omega
      · simp
        omega
    · refine ⟨by simp, by simp [hper], by simpa using hlt⟩
  exact avoids_handleTimerEvent h0 b s hmid (armPhase_no_cancel h0 s)

lemma execFires_cons (s : AsyncTimerState) (b : Bool) (bs : List Bool)
    (h : canFire s = true) :
    execFires s (b :: bs)
      = ((execFires (handleTimerEvent b s).1 bs).1,
         (handleTimerEvent b s).2 ++ (execFires (handleTimerEvent b s).1 bs).2) := by
  conv_lhs => rw [execFires]
  simp [h]

/-- C4: if `run()` armed the initial action with handle `h0`, then after the
callback has fired (clearing `initial_timer_action_` at line 44), no later
step of the execution — neither a self-destruction inside a callback nor a
subsequent run of the destructor — ever calls `TSActionCancel` on `h0`
again. -/
theorem fired_initial_action_never_canceled (t : TimerType) (p ip : Int)
    (dc h0 : Nat) (b : Bool) (bs : List Bool)
    (hi : (runState t p ip dc).initial_timer_action_ = some h0) :
    HostEffect.actionCancel h0 ∉ (execFires (runState t p ip dc) (b :: bs)).2 ∧
    HostEffect.actionCancel h0 ∉
      (AsyncTimer.destruct (stateAfter t p ip dc (b :: bs))).2 := by
  have hcf : canFire (runState t p ip dc) = true := by
    simp [canFire, hi, runState_alive]
  have hstep := avoids_after_initial_fire b _ (timerInv_runState t p ip dc) h0 hi
  have hrest := avoids_execFires h0 bs _ hstep.1
  constructor
  · rw [execFires_cons _ _ _ hcf]
    simp [hstep.2, hrest.2]
  · have hs : stateAfter t p ip dc (b :: bs)
        = (execFires (handleTimerEvent b (runState t p ip dc)).1 bs).1 := by
      unfold stateAfter
      rw [execFires_cons _ _ _ hcf]
    rw [hs]
    exact (avoids_destruct h0 _ hrest.1).2

/-- Witness for the C4 theorem: a periodic timer with an initial delay whose
initial handle is 0; after the first fire neither the trace nor a destructor
run cancels handle 0. -/
theorem fired_initial_action_never_canceled_witness :
    HostEffect.actionCancel 0 ∉
      (execFires (runState TimerType.TYPE_PERIODIC 10 5 0) [true]).2 ∧
    HostEffect.actionCancel 0 ∉
      (AsyncTimer.destruct (stateAfter TimerType.TYPE_PERIODIC 10 5 0 [true])).2 :=
  fired_initial_action_never_canceled TimerType.TYPE_PERIODIC 10 5 0 0 true []
    (by decide)

lemma armPhase_counts (s : AsyncTimerState) :
    (armPhase s).2.countP isDispatchCall = 0 ∧
    (armPhase s).2.countP isDeleteTimer = 0 ∧
    (armPhase s).2.countP isDeleteState = 0 := by
  unfold armPhase
  rcases h : s.initial_timer_action_ with _ | a
  · simp [h]
  · simp only []
    split <;> simp [isDispatchCall, isDeleteTimer, isDeleteState]

lemma cancelArmed_counts (a : Option Nat) :
    (cancelArmed a).countP isDispatchCall = 0 ∧
    (cancelArmed a).countP isDeleteTimer = 0 ∧
    (cancelArmed a).countP isDeleteState = 0 := by
  cases a <;> simp [cancelArmed, isDispatchCall, isDeleteTimer, isDeleteState]

/-- C5: every callback invocation calls `dispatch()` exactly once (the
`dispatchCall` effect carrying its boolean result appears exactly once in the
invocation's effect trace).  If `dispatch()` returns `true`, the state after
the invocation is exactly the state the arming phase produced — the object
survives, unchanged by the dispatch step.  If `dispatch()` returns `false`,
the timer deletes itself exactly once inside that very invocation (`delete
state->timer_` once, `delete state_` once, object dead afterwards) and no
further callback is ever delivered to it. -/
theorem callback_dispatches_once_and_self_destructs_on_false (b : Bool)
    (s : AsyncTimerState) :
    (handleTimerEvent b s).2.countP isDispatchCall = 1 ∧
    HostEffect.dispatchCall b ∈ (handleTimerEvent b s).2 ∧
    (b = true → (handleTimerEvent b s).1 = (armPhase s).1 ∧
      (handleTimerEvent b s).1.timer_alive = s.timer_alive) ∧
    (b = false → (handleTimerEvent b s).1.timer_alive = false ∧
      (handleTimerEvent b s).2.countP isDeleteTimer = 1 ∧
      (handleTimerEvent b s).2.countP isDeleteState = 1 ∧
      ∀ bs, execFires (handleTimerEvent b s).1 bs
        = ((handleTimerEvent b s).1, [])) := by
  obtain ⟨ha1, ha2, ha3⟩ := armPhase_counts s
  obtain ⟨hci1, hci2, hci3⟩ := cancelArmed_counts (armPhase s).1.initial_timer_action_
  obtain ⟨hcp1, hcp2, hcp3⟩ := cancelArmed_counts (armPhase s).1.periodic_timer_action_
  rcases b with _ | _
  · unfold handleTimerEvent AsyncTimer.destruct
    refine ⟨?_, ?_, ?_, ?_⟩
    · simp [List.countP_append, ha1, hci1, hcp1, isDispatchCall]
    · simp
    · intro hcontra
      exact absurd hcontra (by simp)
    · intro _
      refine ⟨by simp, ?_, ?_, ?_⟩
      · simp [List.countP_append, ha2, hci2, hcp2, isDeleteTimer]
      · simp [List.countP_append, ha3, hci3, hcp3, isDeleteState]
      · intro bs
        exact execFires_of_not_canFire _ (by simp [canFire]) bs
  · unfold handleTimerEvent
    refine ⟨?_, ?_, ?_, ?_⟩
    · simp [List.countP_append, ha1, isDispatchCall]
    · simp
    · intro _
      refine ⟨by simp, by simp [armPhase_alive]⟩
    · intro hcontra
      exact absurd hcontra (by simp)

/-- Witness for the C5 theorem: with `dispatch()` returning `true` the state
is exactly the arming phase's result; with `dispatch()` returning `false` the
timer is dead after the invocation. -/
theorem callback_dispatches_once_witness :
    (handleTimerEvent true (runState TimerType.TYPE_PERIODIC 200 50 7)).1
      = (armPhase (runState TimerType.TYPE_PERIODIC 200 50 7)).1 ∧
    (handleTimerEvent false (runState TimerType.TYPE_ONE_OFF 30 0 2)).1.timer_alive
      = false :=
  ⟨((callback_dispatches_once_and_self_destructs_on_false true
      (runState TimerType.TYPE_PERIODIC 200 50 7)).2.2.1 rfl).1,
   ((callback_dispatches_once_and_self_destructs_on_false false
      (runState TimerType.TYPE_ONE_OFF 30 0 2)).2.2.2 rfl).1⟩

lemma canFire_of_armed (s : AsyncTimerState) (ha : s.timer_alive = true)
    (hc : 1 ≤ armedCount s) : canFire s = true := by
  unfold canFire
  unfold armedCount at hc
  cases hi : s.initial_timer_action_.isSome <;>
    cases hp : s.periodic_timer_action_.isSome <;>
    simp_all

lemma handleTimerEvent_true_steady (s : AsyncTimerState)
    (hi : s.initial_timer_action_ = none) :
    handleTimerEvent true s = (s, [HostEffect.dispatchCall true]) := by
  unfold handleTimerEvent
  simp [armPhase_none s hi]

lemma execFires_steady (s : AsyncTimerState) (hi : s.initial_timer_action_ = none)
    (hp : s.periodic_timer_action_.isSome = true) (ha : s.timer_alive = true)
    (m : Nat) : (execFires s (List.replicate m true)).1 = s := by
  induction m with
  | zero => rfl
  | succ k ih =>
    rw [List.replicate_succ]
    have hcf : canFire s = true := by simp [canFire, ha, hp]
    rw [execFires_cons _ _ _ hcf, handleTimerEvent_true_steady s hi]
    exact ih

lemma armPhase_periodic_isSome (s : AsyncTimerState)
    (ht : s.type_ = TimerType.TYPE_PERIODIC)
    (h : s.initial_timer_action_.isSome = true ∨
      s.periodic_timer_action_.isSome = true) :
    (armPhase s).1.periodic_timer_action_.isSome = true := by
  unfold armPhase clearInitial
  rcases hi : s.initial_timer_action_ with _ | a
  · simp only [hi]
    simp [hi] at h
    exact h
  · simp only []
    rw [if_pos ht]
    rfl

/-- C6: for a periodic timer that `run()` armed (nonzero selected timeout),
after the first callback fire — and after every later fire on which the
receiver stays alive — the state has `initial_timer_action_` cleared and
exactly one armed handle, the periodic one: repeated fires never accumulate
additional armed handles. -/
theorem periodic_fires_keep_exactly_one_periodic_handle (p ip : Int) (dc n : Nat)
    (hsel : selectedTimeout TimerType.TYPE_PERIODIC p ip ≠ 0) (hn : 1 ≤ n) :
    (stateAfter TimerType.TYPE_PERIODIC p ip dc
        (List.replicate n true)).initial_timer_action_ = none ∧
    (stateAfter TimerType.TYPE_PERIODIC p ip dc
        (List.replicate n true)).periodic_timer_action_.isSome = true ∧
    armedCount (stateAfter TimerType.TYPE_PERIODIC p ip dc
        (List.replicate n true)) = 1 := by
  obtain ⟨m, rfl⟩ : ∃ m, n = m + 1 := ⟨n - 1, by omega⟩
  have halive : (runState TimerType.TYPE_PERIODIC p ip dc).timer_alive = true :=
    runState_alive _ p ip dc
  have harm : armedCount (runState TimerType.TYPE_PERIODIC p ip dc) = 1 := by
    rw [armedCount_runState_eq]
    simp [hsel]
  have hcf : canFire (runState TimerType.TYPE_PERIODIC p ip dc) = true :=
    canFire_of_armed _ halive (by omega)
  have hsome : (runState TimerType.TYPE_PERIODIC p ip dc).initial_timer_action_.isSome
        = true ∨
      (runState TimerType.TYPE_PERIODIC p ip dc).periodic_timer_action_.isSome
        = true := by
    have := canFire_of_armed _ halive (by omega)
    unfold canFire at this
    rcases Bool.and_eq_true_iff.mp this with ⟨_, hor⟩
    exact Bool.or_eq_true_iff.mp hor
  have h1i : (handleTimerEvent true (runState TimerType.TYPE_PERIODIC p ip dc)).1.initial_timer_action_
      = none := by
    rw [handleTimerEvent_true_fst]
    exact armPhase_initial _
  have h1p : (handleTimerEvent true (runState TimerType.TYPE_PERIODIC p ip dc)).1.periodic_timer_action_.isSome
      = true := by
    rw [handleTimerEvent_true_fst]
    exact armPhase_periodic_isSome _ (runState_type _ p ip dc) hsome
  have h1a : (handleTimerEvent true (runState TimerType.TYPE_PERIODIC p ip dc)).1.timer_alive
      = true := by
    rw [handleTimerEvent_true_fst, armPhase_alive]
    exact halive
  have hfinal : stateAfter TimerType.TYPE_PERIODIC p ip dc (List.replicate (m + 1) true)
      = (handleTimerEvent true (runState TimerType.TYPE_PERIODIC p ip dc)).1 := by
    unfold stateAfter
    rw [List.replicate_succ, execFires_cons _ _ _ hcf]
    exact execFires_steady _ h1i h1p h1a m
  rw [hfinal]
  refine ⟨h1i, h1p, ?_⟩
  simp [armedCount, h1i, h1p]

/-- Witness for the C6 theorem: periodic timer with initial delay 50 and
period 200, three fires with a live receiver. -/
theorem periodic_fires_keep_exactly_one_periodic_handle_witness :
    (stateAfter TimerType.TYPE_PERIODIC 200 50 7
        (List.replicate 3 true)).initial_timer_action_ = none ∧
    (stateAfter TimerType.TYPE_PERIODIC 200 50 7
        (List.replicate 3 true)).periodic_timer_action_.isSome = true ∧
    armedCount (stateAfter TimerType.TYPE_PERIODIC 200 50 7
        (List.replicate 3 true)) = 1 :=
  periodic_fires_keep_exactly_one_periodic_handle 200 50 7 3 (by decide) (by decide)

lemma destruct_countP_cancel (s : AsyncTimerState) :
    (AsyncTimer.destruct s).2.countP isActionCancel = armedCount s := by
  unfold AsyncTimer.destruct cancelArmed armedCount
  rcases hi : s.initial_timer_action_ with _ | a <;>
    rcases hp : s.periodic_timer_action_ with _ | c <;>
    simp [isActionCancel]

/-- C7: running the destructor in any reachable post-`run` state emits a
`TSActionCancel` for a handle exactly when that handle is currently armed in
one of the two action fields (so never for an absent or already-cleared one),
emits at most one cancel in total, and its effect list ends by destroying the
continuation and releasing the internal state. -/
theorem destructor_cancels_exactly_live_handles (t : TimerType) (p ip : Int)
    (dc : Nat) (bs : List Bool) :
    (∀ h, HostEffect.actionCancel h
        ∈ (AsyncTimer.destruct (stateAfter t p ip dc bs)).2 ↔
      ((stateAfter t p ip dc bs).initial_timer_action_ = some h ∨
       (stateAfter t p ip dc bs).periodic_timer_action_ = some h)) ∧
    (AsyncTimer.destruct (stateAfter t p ip dc bs)).2.countP isActionCancel ≤ 1 ∧
    (AsyncTimer.destruct (stateAfter t p ip dc bs)).2 =
      cancelArmed (stateAfter t p ip dc bs).initial_timer_action_ ++
        cancelArmed (stateAfter t p ip dc bs).periodic_timer_action_ ++
        [HostEffect.contDestroy, HostEffect.deleteState] := by
  refine ⟨?_, ?_, rfl⟩
  · intro h
    unfold AsyncTimer.destruct cancelArmed
    rcases hi : (stateAfter t p ip dc bs).initial_timer_action_ with _ | a <;>
      rcases hp : (stateAfter t p ip dc bs).periodic_timer_action_ with _ | c <;>
      simp_all [eq_comm]
  · rw [destruct_countP_cancel]
    exact (timerInv_stateAfter t p ip dc bs).1

/-- C8: `getResponseBody()` on a completed fetch yields `(absent, 0)` for a
FAILURE or TIMEOUT result, and on SUCCESS yields the delivered payload with a
size equal to its length. -/
theorem getResponseBody_absent_on_failure_length_on_success (payload : List UInt8) :
    AsyncHttpFetch.getResponseBody
        (AsyncHttpFetch.completion AsyncHttpFetch.Result.RESULT_FAILURE payload)
      = (none, 0) ∧
    AsyncHttpFetch.getResponseBody
        (AsyncHttpFetch.completion AsyncHttpFetch.Result.RESULT_TIMEOUT payload)
      = (none, 0) ∧
    (AsyncHttpFetch.getResponseBody
        (AsyncHttpFetch.completion AsyncHttpFetch.Result.RESULT_SUCCESS payload)).1
      = some payload ∧
    (AsyncHttpFetch.getResponseBody
        (AsyncHttpFetch.completion AsyncHttpFetch.Result.RESULT_SUCCESS payload)).2
      = payload.length :=
  ⟨rfl, rfl, rfl, rfl⟩
